import Mathlib

/-
  Verification of the peripheral I/O layer of the simh-classic simulator:
  shallow embeddings of
    * the Telnet multiplexor receive/transmit machinery (sim_tmxr.c),
    * the Altair hard-disk controller port protocol (AltairZ80/altairz80_hdsk.c),
    * the PDP-18b magnetic-tape controller and record codec (pdp18b_mt.c),
  together with theorems settling the specification claims about them.
  Machine integers are modelled as Nat (unsigned fields, byte values) or Int
  (int32 registers that can legitimately hold negative values); masking with
  a power-of-two-minus-one constant is written with &&& exactly where the C
  source masks.
-/

/- ===================== Telnet multiplexor (sim_tmxr.c) ===================== -/

/-- Telnet line state TNS_NORM (sim_tmxr.c line 60). -/
def TNS_NORM : ℕ := 0

/-- Telnet line state TNS_IAC (line 61). -/
def TNS_IAC : ℕ := 1

/-- Telnet line state TNS_WILL (line 62). -/
def TNS_WILL : ℕ := 2

/-- Telnet line state TNS_WONT (line 63). -/
def TNS_WONT : ℕ := 3

/-- Telnet line state TNS_SKIP (line 64). -/
def TNS_SKIP : ℕ := 4

/--
The de-stuffing scan of tmxr_poll_rx (sim_tmxr.c lines 196-234) over the
newly received bytes.  The C code walks the receive array in place with an
index j, calling tmxr_rmvrc (lines 254-261) to delete the current byte (shift
the suffix left and decrement rxbpi) or advancing j to keep it; here the part
of the buffer still to be scanned is a list of (byte, break-flag) pairs
(rxb[j], rbr[j]) and the returned list is the sequence of kept bytes, in
order.  Byte values are the unsigned values of the received chars, so the
signed char comparisons of the source become: TN_IAC = 0xFF, TN_BRK = 0xF3,
TN_WILL = 0xFB, TN_WONT = 0xFC, TN_BIN = 0, TN_CR = 13.  Result:
(final parse state, final dstb flag, kept stream).
-/
def tmxr_poll_rx_scan : ℕ → ℕ → List (ℕ × Bool) → ℕ × ℕ × List (ℕ × Bool)
  | tsta, dstb, [] => (tsta, dstb, [])
  | tsta, dstb, (b, r) :: rest =>
    if tsta = TNS_NORM then
      -- case TNS_NORM (lines 199-207)
      if b = 0xFF then tmxr_poll_rx_scan TNS_IAC dstb rest
      else
        let tsta1 := if b = 13 ∧ dstb ≠ 0 then TNS_SKIP else TNS_NORM
        let res := tmxr_poll_rx_scan tsta1 dstb rest
        (res.1, res.2.1, (b, r) :: res.2.2)
    else if tsta = TNS_IAC then
      -- case TNS_IAC (lines 208-225)
      if b = 0xFF ∧ dstb = 0 then
        let res := tmxr_poll_rx_scan TNS_NORM dstb rest
        (res.1, res.2.1, (b, r) :: res.2.2)
      else if b = 0xF3 then
        let res := tmxr_poll_rx_scan TNS_NORM dstb rest
        (res.1, res.2.1, (0, true) :: res.2.2)
      else if b = 0xFB then tmxr_poll_rx_scan TNS_WILL dstb rest
      else if b = 0xFC then tmxr_poll_rx_scan TNS_WONT dstb rest
      else tmxr_poll_rx_scan TNS_SKIP dstb rest
    else if tsta = TNS_WILL ∨ tsta = TNS_WONT then
      -- case TNS_WILL / TNS_WONT (lines 226-229), falling through to removal
      let dstb1 := if b = 0 then (if tsta = TNS_WILL then 0 else 1) else dstb
      tmxr_poll_rx_scan TNS_NORM dstb1 rest
    else
      -- case TNS_SKIP and default (lines 230-233)
      tmxr_poll_rx_scan TNS_NORM dstb rest

/-- A Telnet line's transmit side (the TMLN fields used by tmxr_putc_ln). -/
structure TxLine where
  conn : ℕ
  txb : ℕ → ℕ
  txbpi : ℕ
  txbpr : ℕ
  xmte : ℕ

/--
tmxr_putc_ln (sim_tmxr.c lines 272-286).  maxbuf and guard stand for the
TMXR_MAXBUF and TMXR_GUARD constants of the missing sim_tmxr.h header.  The
stored char is the low byte of chr, and the IAC comparison (char) chr ==
TN_IAC is chr mod 256 = 0xFF.  The C function returns void: the caller gets
no error indication in any branch.
-/
def tmxr_putc_ln (maxbuf guard : ℕ) (lp : TxLine) (chr : ℕ) : TxLine :=
  if lp.conn = 0 then lp
  else if lp.txbpi < maxbuf then
    let lp1 : TxLine :=
      { lp with txb := Function.update lp.txb lp.txbpi (chr % 256), txbpi := lp.txbpi + 1 }
    let lp2 : TxLine :=
      if chr % 256 = 0xFF ∧ lp1.txbpi < maxbuf then
        { lp1 with txb := Function.update lp1.txb lp1.txbpi (chr % 256), txbpi := lp1.txbpi + 1 }
      else lp1
    if maxbuf - guard < lp2.txbpi then { lp2 with xmte := 0 } else lp2
  else { lp with xmte := 0 }

/- ============== Altair hard disk controller (AltairZ80/altairz80_hdsk.c) ============== -/

/-- Command code HDSK_NONE (altairz80_hdsk.c line 52). -/
def HDSK_NONE : ℕ := 0

/-- Command code HDSK_RESET (line 53). -/
def HDSK_RESET : ℕ := 1

/-- Command code HDSK_READ (line 54). -/
def HDSK_READ : ℕ := 2

/-- Command code HDSK_WRITE (line 55). -/
def HDSK_WRITE : ℕ := 3

/-- Command code HDSK_PARAM (line 56). -/
def HDSK_PARAM : ℕ := 4

/-- Result code CPM_OK (line 49). -/
def CPM_OK : ℕ := 0

/-- Result code CPM_ERROR (line 50). -/
def CPM_ERROR : ℕ := 1

/-- Fill byte CPM_EMPTY for nonexisting sectors (line 51). -/
def CPM_EMPTY : ℕ := 0xe5

/-- Number of hard disk units, HDSK_NUMBER (line 48). -/
def HDSK_NUMBER : ℕ := 8

/-- CP/M disk parameter block, struct DPB (lines 92-107).  The C field name
(a char[16]) is kept as nm. -/
structure DPB where
  nm : String
  capac : ℕ
  spt : ℕ
  bsh : ℕ
  blm : ℕ
  exm : ℕ
  dsm : ℕ
  drm : ℕ
  al0 : ℕ
  al1 : ℕ
  cks : ℕ
  off : ℕ
  psh : ℕ
  phm : ℕ

/-- The static geometry table dpb(lines 109-116), last entry the all-zero
sentinel; HDSK_CAPACITY = 2048*32*128 = 8388608. -/
def dpbTable : List DPB :=
  [⟨"HDSK", 8388608, 32, 0x05, 0x1F, 0x01, 0x07f9, 0x03FF, 0xFF, 0x00, 0x8000, 0x0006, 0x00, 0x00⟩,
   ⟨"EZ80FL", 131072, 32, 0x03, 0x07, 0x00, 127, 0x003E, 0xC0, 0x00, 0x0000, 0x0000, 0x02, 0x03⟩,
   ⟨"P112", 1474560, 72, 0x04, 0x0F, 0x00, 710, 0x00FE, 0xF0, 0x00, 0x0000, 0x0002, 0x02, 0x03⟩,
   ⟨"SU720", 737280, 36, 0x04, 0x0F, 0x00, 354, 0x007E, 0xC0, 0x00, 0x0020, 0x0002, 0x02, 0x03⟩,
   ⟨"", 0, 0, 0, 0, 0, 0, 0, 0, 0, 0, 0, 0, 0⟩]

/-- Indexing dpb[i]. -/
def dpbAt (i : ℕ) : DPB := dpbTable.getD i ⟨"", 0, 0, 0, 0, 0, 0, 0, 0, 0, 0, 0, 0, 0⟩

/-- One UNIT of the hdsk device: the flag bits and the u3..u6 geometry
fields the driver uses, plus the attached backing file (contents, length and
current stdio position) and an oracle for fwrite success. -/
structure HdskUnit where
  att : Bool
  wlk : Bool
  verbose : Bool
  formatType : ℕ
  sectorSize : ℕ
  spt : ℤ
  maxTracks : ℤ
  fileData : ℕ → ℕ
  fileSize : ℕ
  filePos : ℕ
  writeOK : Bool

/-- The hdsk driver state: the file-static command sequencer variables
(lines 83-89), the unit array (indexed by Int so that the out-of-bounds
access hdsk_unit[selectedDisk] with an unrepaired selectedDisk is
representable: indices outside 0..7 read whatever the model environment puts
there), the simulated Z80 memory reached through Get/PutBYTEWrapper, and the
global sector buffer hdskbuf (line 454). -/
structure HdskSim where
  lastCommand : ℕ
  commandPosition : ℕ
  paramcount : ℕ
  selectedDisk : ℤ
  selectedSector : ℤ
  selectedTrack : ℤ
  selectedDMA : ℤ
  units : ℤ → HdskUnit
  mem : ℤ → ℕ
  hdskbuf : ℕ → ℕ

/-- Replace the unit record at index i. -/
def HdskSim.setUnit (s : HdskSim) (i : ℤ) (u : HdskUnit) : HdskSim :=
  { s with units := Function.update s.units i u }

/-- Modelled from the spec: PutBYTEWrapper from the AltairZ80 CPU module
(not under src/) stores one byte into the simulated memory image. -/
def PutBYTEWrapper (mem : ℤ → ℕ) (addr : ℤ) (v : ℕ) : ℤ → ℕ :=
  Function.update mem addr (v % 256)

/-- Modelled from the spec: GetBYTEWrapper from the AltairZ80 CPU module
(not under src/) reads one byte from the simulated memory image. -/
def GetBYTEWrapper (mem : ℤ → ℕ) (addr : ℤ) : ℕ := mem addr % 256

/-- The copy loop of doRead (lines 473-475): for i below n, store buf i at
memory address dma + i. -/
def putMemBytes (mem : ℤ → ℕ) (dma : ℤ) (buf : ℕ → ℕ) : ℕ → (ℤ → ℕ)
  | 0 => mem
  | n + 1 => PutBYTEWrapper (putMemBytes mem dma buf n) (dma + (n : ℤ)) (buf n)

/-- checkParameters (lines 400-437).  Faithful to the source, the UNIT
pointer uptr is computed at entry, before the selectedDisk repair, and the
sector/track bounds are read through it; the attached check reloads the unit
from the repaired index.  The DMA mask selectedDMA &= ADDRMASK uses ADDRMASK
= 0xFFFF (the 64 KB address space, from the missing altairz80_defs.h); for
an int32 the masking equals the nonnegative remainder mod 65536.  Returns
(TRUE iff the parameters are usable, updated state). -/
def checkParameters (s : HdskSim) : Bool × HdskSim :=
  let uptr := s.units s.selectedDisk
  let s1 := if s.selectedDisk < 0 ∨ (HDSK_NUMBER : ℤ) ≤ s.selectedDisk then
      { s with selectedDisk := 0 } else s
  let currentFlag := s1.units s1.selectedDisk
  if currentFlag.att = false then (false, s1)
  else
    let s2 := if s1.selectedSector < 0 ∨ uptr.spt ≤ s1.selectedSector then
        { s1 with selectedSector := 0 } else s1
    let s3 := if s2.selectedTrack < 0 ∨ uptr.maxTracks ≤ s2.selectedTrack then
        { s2 with selectedTrack := 0 } else s2
    (true, { s3 with selectedDMA := s3.selectedDMA % 65536 })

/-- doSeek (lines 439-452): compute the byte offset of (track, sector) and
reposition the backing file there; fseek on a regular file fails exactly when
the offset is negative. -/
def doSeek (s : HdskSim) : ℕ × HdskSim :=
  let uptr := s.units s.selectedDisk
  let offset : ℤ := (uptr.spt * (uptr.sectorSize : ℤ)) * s.selectedTrack +
    (uptr.sectorSize : ℤ) * s.selectedSector
  if offset < 0 then (CPM_ERROR, s)
  else (CPM_OK, s.setUnit s.selectedDisk { uptr with filePos := offset.toNat })

/-- doRead (lines 456-477): seek, read one sector into hdskbuf (a short read
fills the buffer with CPM_EMPTY and still reports CPM_OK, so new sparse
images read as empty), then copy the buffer into simulated memory at the DMA
address.  fread succeeds iff a whole sector lies within the file. -/
def doRead (s : HdskSim) : ℕ × HdskSim :=
  let r := doSeek s
  if r.1 ≠ CPM_OK then (CPM_ERROR, r.2)
  else
    let s1 := r.2
    let uptr := s1.units s1.selectedDisk
    if uptr.filePos + uptr.sectorSize ≤ uptr.fileSize then
      let buf := fun i => if i < uptr.sectorSize then uptr.fileData (uptr.filePos + i) else s1.hdskbuf i
      let s2 := s1.setUnit s1.selectedDisk { uptr with filePos := uptr.filePos + uptr.sectorSize }
      (CPM_OK, { s2 with hdskbuf := buf, mem := putMemBytes s2.mem s2.selectedDMA buf uptr.sectorSize })
    else
      (CPM_OK, { s1 with hdskbuf := fun i => if i < uptr.sectorSize then CPM_EMPTY else s1.hdskbuf i })

/-- doWrite (lines 479-506): if the unit is write-locked, report CPM_ERROR
without seeking or touching anything; otherwise seek, copy one sector from
simulated memory into hdskbuf and write it to the backing file (a failed
fwrite, via the writeOK oracle, is CPM_ERROR). -/
def doWrite (s : HdskSim) : ℕ × HdskSim :=
  let uptr0 := s.units s.selectedDisk
  if uptr0.wlk = false then
    let r := doSeek s
    if r.1 ≠ CPM_OK then (CPM_ERROR, r.2)
    else
      let s1 := r.2
      let uptr := s1.units s1.selectedDisk
      let buf := fun i => if i < uptr.sectorSize then GetBYTEWrapper s1.mem (s1.selectedDMA + (i : ℤ)) else s1.hdskbuf i
      let s2 := { s1 with hdskbuf := buf }
      if uptr.writeOK then
        let fd := fun a => if uptr.filePos ≤ a ∧ a < uptr.filePos + uptr.sectorSize then buf (a - uptr.filePos) else uptr.fileData a
        (CPM_OK, s2.setUnit s2.selectedDisk
          { uptr with fileData := fd,
                      fileSize := max uptr.fileSize (uptr.filePos + uptr.sectorSize),
                      filePos := uptr.filePos + uptr.sectorSize })
      else (CPM_ERROR, s2)
  else (CPM_ERROR, s)

/-- hdsk_in (lines 508-550): after the 6th parameter byte of READ/WRITE,
validate and execute; during GET-PARAMETERS produce the 19 result bytes and
return to idle on the 19th; any other read takes the out-of-order diagnostic
path and returns CPM_OK. -/
def hdsk_in (s : HdskSim) : ℕ × HdskSim :=
  let uptr := s.units s.selectedDisk
  if s.commandPosition = 6 ∧ (s.lastCommand = HDSK_READ ∨ s.lastCommand = HDSK_WRITE) then
    let c := checkParameters s
    let r := if c.1 then (if s.lastCommand = HDSK_READ then doRead c.2 else doWrite c.2)
             else (CPM_ERROR, c.2)
    (r.1, { r.2 with lastCommand := HDSK_NONE, commandPosition := 0 })
  else if s.lastCommand = HDSK_PARAM then
    let current := dpbAt uptr.formatType
    let params : List ℕ :=
      [current.spt &&& 0xff, (current.spt >>> 8) &&& 0xff,
       current.bsh, current.blm, current.exm,
       current.dsm &&& 0xff, (current.dsm >>> 8) &&& 0xff,
       current.drm &&& 0xff, (current.drm >>> 8) &&& 0xff,
       current.al0, current.al1,
       current.cks &&& 0xff, (current.cks >>> 8) &&& 0xff,
       current.off &&& 0xff, (current.off >>> 8) &&& 0xff,
       current.psh, current.phm]
    let pc := s.paramcount + 1
    let s1 := { s with paramcount := pc,
                       lastCommand := if 19 ≤ pc then HDSK_NONE else s.lastCommand }
    if pc ≤ 17 then (params.getD (pc - 1) 0, s1)
    else if pc = 18 then (uptr.sectorSize &&& 0xff, s1)
    else if pc = 19 then (uptr.sectorSize >>> 8, s1)
    else (CPM_OK, s1)
  else (CPM_OK, s)

/-- hdsk_out (lines 552-606): the write side of the command sequencer.
data << 8 is written data * 256. -/
def hdsk_out (s : HdskSim) (data : ℕ) : HdskSim :=
  if s.lastCommand = HDSK_PARAM then
    { s with paramcount := 0, selectedDisk := (data : ℤ) }
  else if s.lastCommand = HDSK_READ ∨ s.lastCommand = HDSK_WRITE then
    if s.commandPosition = 0 then
      { s with selectedDisk := (data : ℤ), commandPosition := s.commandPosition + 1 }
    else if s.commandPosition = 1 then
      { s with selectedSector := (data : ℤ), commandPosition := s.commandPosition + 1 }
    else if s.commandPosition = 2 then
      { s with selectedTrack := (data : ℤ), commandPosition := s.commandPosition + 1 }
    else if s.commandPosition = 3 then
      { s with selectedTrack := s.selectedTrack + (data : ℤ) * 256, commandPosition := s.commandPosition + 1 }
    else if s.commandPosition = 4 then
      { s with selectedDMA := (data : ℤ), commandPosition := s.commandPosition + 1 }
    else if s.commandPosition = 5 then
      { s with selectedDMA := s.selectedDMA + (data : ℤ) * 256, commandPosition := s.commandPosition + 1 }
    else { s with lastCommand := HDSK_NONE, commandPosition := 0 }
  else { s with lastCommand := data, commandPosition := 0 }

/-- Iterate hdsk_in n times, collecting the returned bytes in order. -/
def hdskReadN : ℕ → HdskSim → List ℕ × HdskSim
  | 0, s => ([], s)
  | n + 1, s =>
    let r := hdsk_in s
    let rest := hdskReadN n r.2
    (r.1 :: rest.1, rest.2)

/-- The 19 GET-PARAMETERS result bytes exactly as hdsk_in produces them
(source side), for the unit selected by index u. -/
def rawParamList (s : HdskSim) (u : ℕ) : List ℕ :=
  let d := dpbAt (s.units (u : ℤ)).formatType
  [d.spt &&& 0xff, (d.spt >>> 8) &&& 0xff, d.bsh, d.blm, d.exm,
   d.dsm &&& 0xff, (d.dsm >>> 8) &&& 0xff, d.drm &&& 0xff, (d.drm >>> 8) &&& 0xff,
   d.al0, d.al1, d.cks &&& 0xff, (d.cks >>> 8) &&& 0xff, d.off &&& 0xff, (d.off >>> 8) &&& 0xff,
   d.psh, d.phm,
   (s.units (u : ℤ)).sectorSize &&& 0xff, (s.units (u : ℤ)).sectorSize >>> 8]

/-- The 19 GET-PARAMETERS result bytes as the specification words them: the
17 bytes of the geometry descriptor with multi-byte fields split low byte
first, then the physical sector size low byte, then its high byte. -/
def paramBytes (d : DPB) (secSize : ℕ) : List ℕ :=
  [d.spt % 256, d.spt / 256, d.bsh, d.blm, d.exm,
   d.dsm % 256, d.dsm / 256, d.drm % 256, d.drm / 256,
   d.al0, d.al1, d.cks % 256, d.cks / 256, d.off % 256, d.off / 256,
   d.psh, d.phm, secSize % 256, secSize / 256]

/-- Unit 0 for the C2 scenario: attached, sectorsPerTrack = 32,
maxTracks = 2048 (the standard HDSK geometry). -/
def c2unit0 : HdskUnit := ⟨true, false, false, 0, 128, 32, 2048, fun _ => 0, 8388608, 0, true⟩

/-- One possible content of the memory that lies beyond the 8-entry unit
array: hdsk_unit[99] is an out-of-bounds read, so its geometry fields are
whatever happens to be there; this environment gives it maxTracks =
1048576. -/
def c2oobBig : HdskUnit := ⟨false, false, false, 0, 0, 64, 1048576, fun _ => 0, 0, 0, true⟩

/-- Another possible content of the out-of-bounds memory, with a small
maxTracks. -/
def c2oobSmall : HdskUnit := ⟨false, false, false, 0, 0, 64, 0, fun _ => 0, 0, 0, true⟩

/-- The C2 failing input: a READ with all six parameter bytes received,
unit = 99, sector = -1, track = 999999, parametrized by the out-of-bounds
memory environment. -/
def c2state (oob : HdskUnit) : HdskSim :=
  ⟨HDSK_READ, 6, 0, 99, -1, 999999, 0x1234,
   fun i => if i = 0 then c2unit0 else oob, fun _ => 0, fun _ => 0⟩

/-- A concrete idle controller state used by witnesses: all eight units
attached with the standard HDSK geometry (format 0, 128-byte sectors). -/
def hdskDemo : HdskSim :=
  ⟨HDSK_NONE, 0, 0, 0, 0, 0, 0,
   fun _ => ⟨true, false, false, 0, 128, 32, 2048, fun _ => 0, 8388608, 0, true⟩,
   fun _ => 0, fun _ => 0⟩

/- ============== PDP-18b magnetic tape controller (pdp18b_mt.c) ============== -/

/-- Status bit STA_ERR, error (pdp18b_mt.c line 89). -/
def STA_ERR : ℕ := 0o400000

/-- Status bit STA_REW, rewinding (line 90). -/
def STA_REW : ℕ := 0o200000

/-- Status bit STA_BOT, start of tape (line 91). -/
def STA_BOT : ℕ := 0o100000

/-- Status bit STA_ILL, illegal command (line 92). -/
def STA_ILL : ℕ := 0o040000

/-- Status bit STA_PAR, parity error (line 93). -/
def STA_PAR : ℕ := 0o020000

/-- Status bit STA_EOF, end of file (line 94). -/
def STA_EOF : ℕ := 0o010000

/-- Status bit STA_EOT, end of tape (line 95). -/
def STA_EOT : ℕ := 0o004000

/-- Status bit STA_CPE, compare error (line 96). -/
def STA_CPE : ℕ := 0o002000

/-- Status bit STA_RLE, record length error (line 97). -/
def STA_RLE : ℕ := 0o001000

/-- Status bit STA_DLT, data late (line 98). -/
def STA_DLT : ℕ := 0o000400

/-- Status bit STA_BAD, bad tape (line 99). -/
def STA_BAD : ℕ := 0o000200

/-- Status bit STA_DON, done (line 100). -/
def STA_DON : ℕ := 0o000100

/-- Always-cleared status bits STA_CLR (line 102). -/
def STA_CLR : ℕ := 0o000077

/-- Dynamic status bits STA_DYN kept in the unit USTAT (line 103). -/
def STA_DYN : ℕ := STA_REW ||| STA_BOT ||| STA_EOF ||| STA_EOT

/-- Error flag bits STA_EFLGS (lines 105-106). -/
def STA_EFLGS : ℕ :=
  STA_BOT ||| STA_ILL ||| STA_PAR ||| STA_EOF ||| STA_EOT ||| STA_CPE ||| STA_RLE ||| STA_DLT ||| STA_BAD

/-- Command register bit CU_DUMP, dump mode (line 66). -/
def CU_DUMP : ℕ := 0o020000

/-- Command register bit CU_ERASE, extended record gap (line 67). -/
def CU_ERASE : ℕ := 0o010000

/-- Command register bit CU_IE (line 78). -/
def CU_IE : ℕ := 0o000400

/-- Function code FN_NOP (line 70). -/
def FN_NOP : ℕ := 0

/-- Function code FN_REWIND (line 71). -/
def FN_REWIND : ℕ := 1

/-- Function code FN_READ (line 72). -/
def FN_READ : ℕ := 2

/-- Function code FN_CMPARE (line 73). -/
def FN_CMPARE : ℕ := 3

/-- Function code FN_WRITE (line 74). -/
def FN_WRITE : ℕ := 4

/-- Function code FN_WREOF (line 75). -/
def FN_WREOF : ℕ := 5

/-- Function code FN_SPACEF (line 76). -/
def FN_SPACEF : ℕ := 6

/-- Function code FN_SPACER (line 77). -/
def FN_SPACER : ℕ := 7

/-- Drive type TY_9TK (line 81). -/
def TY_9TK : ℕ := 3

/-- GET_UNIT macro (line 82): unit field of the command register. -/
def GET_UNIT (x : ℕ) : ℕ := (x >>> 15) &&& 0o7

/-- GET_CMD macro (line 83): function field of the command register. -/
def GET_CMD (x : ℕ) : ℕ := (x >>> 9) &&& 0o7

/-- GET_TYPE macro (line 84): drive type field. -/
def GET_TYPE (x : ℕ) : ℕ := (x >>> 6) &&& 0o3

/-- PACKED macro (line 85): dump mode selected or drive not 9-track. -/
def PACKED (x : ℕ) : Bool := (x &&& CU_DUMP != 0) || (GET_TYPE x != TY_9TK)

/-- The new mt_sta value computed by mt_updcsta (lines 407-409): clear the
dynamic, error and always-clear bits, merge the unit dynamic status and the
new bits, then set STA_ERR if any error flag is on.  The C expression
mt_sta and-not mask is Nat.ldiff (identical bitwise, for the nonnegative
int32 values involved). -/
def mt_newsta (sta ustat new : ℕ) : ℕ :=
  let sta1 := Nat.ldiff sta (STA_DYN ||| STA_ERR ||| STA_CLR) ||| (ustat &&& STA_DYN) ||| new
  if sta1 &&& STA_EFLGS ≠ 0 then sta1 ||| STA_ERR else sta1

/-- mt_updcsta (lines 405-414): update the controller status and raise or
withdraw the interrupt request.  INT_MTA, defined in the missing
pdp18b_defs.h, is a single int_req bit, modelled as 2 to the power k; the C
int_req or INT_MTA and int_req and-not INT_MTA become or and Nat.ldiff.
Returns (new mt_sta, new int_req). -/
def mt_updcsta (k sta ustat cu intReq new : ℕ) : ℕ × ℕ :=
  let sta2 := mt_newsta sta ustat new
  if sta2 &&& (STA_ERR ||| STA_DON) ≠ 0 ∧ cu &&& CU_IE = 0 then (sta2, intReq ||| 2 ^ k)
  else (sta2, Nat.ldiff intReq (2 ^ k))

/-- One tape UNIT: status word USTAT (u3), tape position, the attached and
write-locked flags, and whether a service event is scheduled
(sim_is_active). -/
structure MtUnit where
  ustat : ℕ
  pos : ℕ
  att : Bool
  wlk : Bool
  active : Bool

/-- The tape controller state: command/unit register mt_cu, status register
mt_sta, the interrupt request word int_req, and the eight units (a total
function; only indices 0..7 are ever produced by GET_UNIT or scanned). -/
structure MtCtl where
  cu : ℕ
  sta : ℕ
  intReq : ℕ
  units : ℕ → MtUnit

/-- Apply mt_updcsta for unit index uidx to a controller state. -/
def updC (k : ℕ) (s : MtCtl) (uidx new : ℕ) : MtCtl :=
  let p := mt_updcsta k s.sta (s.units uidx).ustat s.cu s.intReq new
  { s with sta := p.1, intReq := p.2 }

/-- Replace the unit record at index i. -/
def MtCtl.setUnit (s : MtCtl) (i : ℕ) (u : MtUnit) : MtCtl :=
  { s with units := Function.update s.units i u }

/-- mt_busy (lines 418-428), on the unit array: some unit has a scheduled
event and is not merely rewinding. -/
def mtBusyU (us : ℕ → MtUnit) : Bool :=
  (List.range 8).any fun u => (us u).active && ((us u).ustat &&& STA_REW == 0)

/-- mt_busy on a controller state. -/
def mtBusy (s : MtCtl) : Bool := mtBusyU s.units

/-- The IOT routine mt (lines 201-233).  iotskp stands for IOT_SKP from the
missing defs header and k for the INT_MTA bit position; pulse and AC are the
IOT arguments.  The UNIT pointer uptr is captured at entry, as in the
source.  sim_activate makes a unit active.  The C function is named mt; the
Lean name mt_iot avoids the clash with an unrelated library lemma.  Returns
(new controller state, returned AC value). -/
def mt_iot (k iotskp pulse AC : ℕ) (s0 : MtCtl) : MtCtl × ℕ :=
  let uidx := GET_UNIT s0.cu
  let uptr := s0.units uidx
  let s := updC k s0 uidx 0
  if pulse = 0o1 then (s, if !uptr.active then iotskp + AC else AC)
  else if pulse = 0o21 then (s, if !(mtBusy s) then iotskp + AC else AC)
  else if pulse = 0o41 then (s, if s.sta &&& (STA_ERR ||| STA_DON) ≠ 0 then iotskp + AC else AC)
  else if pulse = 0o2 then (s, s.cu &&& 0o777700)
  else if pulse = 0o42 then (s, s.sta)
  else
    let s1 := if pulse &&& 0o62 = 0o22 then
        let sa := if !(mtBusy s) then { s with cu := 0, sta := 0 } else s
        { sa with sta := Nat.ldiff sa.sta (STA_ERR ||| STA_DON) }
      else s
    let s2 := if pulse &&& 0o64 = 0o24 then
        { s1 with cu := (s1.cu &&& 0o770700) ||| (AC &&& 0o777700) }
      else s1
    let s3 := if pulse = 0o4 then
        let f := GET_CMD s2.cu
        if mtBusy s2 || uptr.active ||
           ((f == FN_SPACER || f == FN_REWIND) && (uptr.pos == 0)) ||
           ((f == FN_WRITE || f == FN_WREOF) && uptr.wlk) ||
           !uptr.att || (f == FN_NOP) then
          { s2 with sta := s2.sta ||| STA_ILL }
        else if f = FN_REWIND then s2.setUnit uidx { uptr with ustat := STA_REW, active := true }
        else { s2 with sta := 0,
                       units := Function.update s2.units uidx { uptr with ustat := 0, active := true } }
      else s2
    (updC k s3 (GET_UNIT s3.cu) 0, AC)

/-- A concrete controller state for the C4 witness: command register selects
unit 0 and function READ, all units idle and unattached. -/
def mtDemo : MtCtl := ⟨0o2000, 0, 0, fun _ => ⟨0, 0, false, false, false⟩⟩

/- ============== Tape frame codec: the mt_svc data transfer cases ============== -/

/-- Maximum data record DBSIZE (line 56). -/
def DBSIZE : ℕ := 4096

/-- DBMASK (line 57). -/
def DBMASK : ℕ := DBSIZE - 1

/-- Address of the in-core word count register, MT_WC = 032 (line 58). -/
def MT_WC : ℕ := 0o32

/-- Address of the in-core memory address register, MT_MA = 033 (line 59). -/
def MT_MA : ℕ := 0o33

/-- Modelled from the spec: the MTRL record-length macro of the missing defs
header masks the error flag (the high bit of the 32-bit length field) off to
get the true payload length. -/
def MTRL (x : ℕ) : ℕ := x &&& 0x7FFFFFFF

/-- The state touched by the mt_svc data transfer cases: the 18-bit memory
M (the in-core registers M[MT_WC] and M[MT_MA] live inside it), the
controller registers mt_sta/mt_cu/int_req, the unit status word USTAT and
the tape position. -/
structure TapeSvc where
  mem : ℕ → ℕ
  sta : ℕ
  cu : ℕ
  intReq : ℕ
  ustat : ℕ
  pos : ℕ

/-- mt_updcsta applied to a service state. -/
def updcstaT (k : ℕ) (s : TapeSvc) (new : ℕ) : TapeSvc :=
  let p := mt_updcsta k s.sta s.ustat s.cu s.intReq new
  { s with sta := p.1, intReq := p.2 }

/-- The buffer actually written by fxwrite is (tbc + 1) and-not 1 bytes
(line 334): one junk pad byte joins an odd-length payload; the uninitialized
pad is modelled as 0 (it is never decoded). -/
def padEven (l : List ℕ) : List ℕ := if l.length % 2 = 1 then l ++ [0] else l

/-- The copy loop of the FN_WRITE case (lines 324-333): n words from memory
to the byte buffer; M[MT_MA] is incremented (mod 2^18, the & 0777777 of the
source) before each word and M[MT_WC] after it; a word is split into three
6-bit bytes in packed mode and two 8-bit bytes otherwise.  mask is the
ADDRMASK constant of the missing pdp18b_defs.h. -/
def mtWriteLoop (mask : ℕ) (packed : Bool) : ℕ → (ℕ → ℕ) → List ℕ → ((ℕ → ℕ) × List ℕ)
  | 0, M, dbuf => (M, dbuf)
  | n + 1, M, dbuf =>
    let M1 := Function.update M MT_MA ((M MT_MA + 1) &&& 0o777777)
    let xma := M1 MT_MA &&& mask
    let bytes := if packed then
        [(M1 xma >>> 12) &&& 0o77, (M1 xma >>> 6) &&& 0o77, M1 xma &&& 0o77]
      else [(M1 xma >>> 8) &&& 0o377, M1 xma &&& 0o377]
    let M2 := Function.update M1 MT_WC ((M1 MT_WC + 1) &&& 0o777777)
    mtWriteLoop mask packed n M2 (dbuf ++ bytes)

/-- The FN_WRITE case of mt_svc (lines 319-339) with the common exit (lines
394-400): compute word count and byte count, stream the words to the record
buffer, advance the position by the even-rounded payload plus the two length
words, then run the ferror check (oracle werr) and the final mt_updcsta with
STA_DON.  Returns (new state, leading/trailing length word tbc, payload as
written). -/
def mtSvcWrite (k mask : ℕ) (werr : Bool) (s : TapeSvc) : TapeSvc × ℕ × List ℕ :=
  let wc := DBSIZE - (s.mem MT_WC &&& DBMASK)
  let tbc := if PACKED s.cu then wc * 3 else wc * 2
  let r := mtWriteLoop mask (PACKED s.cu) wc s.mem []
  let s1 := { s with mem := r.1, pos := s.pos + 2 * ((tbc + 1) / 2) + 8 }
  let s2 := if werr then updcstaT k s1 STA_PAR else s1
  (updcstaT k s2 STA_DON, tbc, padEven r.2)

/-- Reassembling a word from three 6-bit bytes (lines 302-306); each byte is
masked with 077 as read from the buffer. -/
def dec3 (b1 b2 b3 : ℕ) : ℕ :=
  (((b1 &&& 0o77) <<< 12) ||| ((b2 &&& 0o77) <<< 6)) ||| (b3 &&& 0o77)

/-- Reassembling a word from two bytes (lines 307-309). -/
def dec2 (b1 b2 : ℕ) : ℕ := (b1 <<< 8) ||| b2

/-- The copy loop of the FN_READ/FN_CMPARE case (lines 299-315): n words
from the byte buffer into memory; reading past the zero-filled part of the
buffer (uninitialized in the source) yields 0.  MEM_ADDR_OK of the missing
defs header is modelled from the spec as address below the configured memory
size.  For FN_READ a word is stored iff its address is valid; for FN_CMPARE
a mismatch against the masked memory word calls mt_updcsta with STA_CPE and
breaks out of the loop; M[MT_WC] is incremented after each completed
word. -/
def mtReadLoop (k mask memsize : ℕ) (packed cmp : Bool) : ℕ → List ℕ → TapeSvc → TapeSvc
  | 0, _, s => s
  | n + 1, dbuf, s =>
    let M1 := Function.update s.mem MT_MA ((s.mem MT_MA + 1) &&& 0o777777)
    let xma := M1 MT_MA &&& mask
    let c := if packed then dec3 (dbuf.getD 0 0) (dbuf.getD 1 0) (dbuf.getD 2 0)
             else dec2 (dbuf.getD 0 0) (dbuf.getD 1 0)
    let rest := if packed then dbuf.drop 3 else dbuf.drop 2
    if cmp = false ∧ xma < memsize then
      let M2 := Function.update M1 xma c
      let M3 := Function.update M2 MT_WC ((M2 MT_WC + 1) &&& 0o777777)
      mtReadLoop k mask memsize packed cmp n rest { s with mem := M3 }
    else if cmp = true ∧ c ≠ M1 xma &&& (if packed then 0o777777 else 0o177777) then
      updcstaT k { s with mem := M1 } STA_CPE
    else
      let M3 := Function.update M1 MT_WC ((M1 MT_WC + 1) &&& 0o777777)
      mtReadLoop k mask memsize packed cmp n rest { s with mem := M3 }

/-- The FN_READ/FN_CMPARE case of mt_svc (lines 275-318) with the common
exit: the record found at the current position is passed in as its leading
length word tbc0 and its payload bytes.  hdrFail models ferror/feof on the
leading length read (end of tape); derr models ferror after the payload
read; both are false on a healthy backing store.  A record length differing
from the one implied by the word count and packing mode sets STA_RLE, and
the smaller length wins. -/
def mtSvcRead (k mask memsize : ℕ) (cmp hdrFail derr : Bool) (tbc0 : ℕ)
    (file : List ℕ) (s : TapeSvc) : TapeSvc :=
  if hdrFail then
    updcstaT k (updcstaT k { s with ustat := STA_EOT } STA_RLE) STA_DON
  else if tbc0 = 0 then
    let s1 := updcstaT k { s with ustat := STA_EOF } STA_RLE
    updcstaT k { s1 with pos := s1.pos + 4 } STA_DON
  else
    let tbc := MTRL tbc0
    let wc := DBSIZE - (s.mem MT_WC &&& DBMASK)
    let cbc := if PACKED s.cu then wc * 3 else wc * 2
    let s1 := if tbc ≠ cbc then { s with sta := s.sta ||| STA_RLE } else s
    let wc2 := if tbc < cbc then (if PACKED s.cu then (tbc + 2) / 3 else (tbc + 1) / 2) else wc
    let cbc2 := if tbc < cbc then tbc else cbc
    let dbuf := file.take cbc2 ++ List.replicate (cbc2 - file.length) 0
    let s2 := mtReadLoop k mask memsize (PACKED s.cu) cmp wc2 dbuf s1
    let s3 := { s2 with pos := s2.pos + 2 * ((tbc + 1) / 2) + 8 }
    let s4 := if derr then updcstaT k s3 STA_PAR else s3
    updcstaT k s4 STA_DON

/-- The packed encodings of the n words the write loop reads from memory M
when the memory address register starts at ma: three 6-bit bytes per word,
the address sequence advancing exactly as in the loops. -/
def encSeq (mask : ℕ) (M : ℕ → ℕ) : ℕ → ℕ → List ℕ
  | _, 0 => []
  | ma, n + 1 =>
    let ma1 := (ma + 1) &&& 0o777777
    let xma := ma1 &&& mask
    [(M xma >>> 12) &&& 0o77, (M xma >>> 6) &&& 0o77, M xma &&& 0o77] ++ encSeq mask M ma1 n

/-- okWindow mask ma n: none of the n data addresses generated from memory
address register value ma is one of the in-core registers MT_WC/MT_MA (the
transfer window does not overlap the tape controller's own memory
locations). -/
def okWindow (mask : ℕ) : ℕ → ℕ → Bool
  | _, 0 => true
  | ma, n + 1 =>
    let ma1 := (ma + 1) &&& 0o777777
    let xma := ma1 &&& mask
    (xma != MT_WC) && (xma != MT_MA) && okWindow mask ma1 n

/-- Write a record from state s; reload the in-core word count and address
registers with their original values (the program re-poises them before the
read-back); install command register cu2 for the read; then read back the
record just written. -/
def writeThenRead (k mask memsize : ℕ) (cu2 : ℕ) (s : TapeSvc) : TapeSvc :=
  let w := mtSvcWrite k mask false s
  mtSvcRead k mask memsize false false false w.2.1 w.2.2
    { w.1 with
        cu := cu2,
        mem := Function.update (Function.update w.1.mem MT_WC (s.mem MT_WC)) MT_MA (s.mem MT_MA) }

/-- A concrete service state for the C3 witness: dump mode (packed), word
count register primed for a one-word record at address 100. -/
def tapeDemo : TapeSvc :=
  ⟨fun a => if a = MT_WC then 4095 else if a = MT_MA then 100 else 7, 0, 0o20000, 0, 0, 0⟩

/- ===================== Theorems: Telnet claims ===================== -/

/--
C7: running the Telnet de-stuffing state machine from parser state NORMAL
over received bytes 0x41, 0xFF, 0xFF, 0x42 in binary mode (dstb = 0) leaves
readable stream 0x41, 0xFF, 0x42 (the doubled IAC is un-stuffed), and over
0xFF, 0xFB, 0x01, 0x43 (IAC WILL ECHO, then the char C) leaves readable
stream 0x43 (the whole negotiation sequence is consumed).
-/
theorem c7_destuff_examples :
    tmxr_poll_rx_scan TNS_NORM 0
        [(0x41, false), (0xFF, false), (0xFF, false), (0x42, false)] =
      (TNS_NORM, 0, [(0x41, false), (0xFF, false), (0x42, false)]) ∧
    tmxr_poll_rx_scan TNS_NORM 0
        [(0xFF, false), (0xFB, false), (0x01, false), (0x43, false)] =
      (TNS_NORM, 0, [(0x43, false)]) := by
  constructor <;> rfl

/--
C6 counterexample: the claim says that after IAC WILL BIN the line is in
non-binary mode, where binary mode is by its own definition the mode in
which IAC IAC is un-stuffed to a single 0xFF and CR does not skip the next
byte (i.e. dstb = 0 in the source).  Starting from a non-binary line
(dstb = 1), feeding IAC WILL BIN followed by IAC IAC 0x42 yields dstb = 0
and the following doubled IAC IS un-stuffed to a single data 0xFF: WILL BIN
put the line into binary mode, refuting the claimed polarity.
-/
theorem c6_counterexample :
    tmxr_poll_rx_scan TNS_NORM 1
        [(0xFF, false), (0xFB, false), (0x00, false),
         (0xFF, false), (0xFF, false), (0x42, false)] =
      (TNS_NORM, 0, [(0xFF, false), (0x42, false)]) := by
  rfl

/--
C6 (amended): when the byte following IAC WILL is the binary option code (0)
the line is set to BINARY mode (dstb := 0: doubled IAC is un-stuffed and CR
does not skip the following byte), and when the byte following IAC WONT is
the binary option code the line is set to NON-binary mode (dstb := 1); in
both cases the option byte is removed from the readable stream and the
parser returns to NORMAL, with the rest of the input processed from there.
-/
theorem c6_will_wont_binary (dstb : ℕ) (r : Bool) (rest : List (ℕ × Bool)) :
    tmxr_poll_rx_scan TNS_WILL dstb ((0, r) :: rest) = tmxr_poll_rx_scan TNS_NORM 0 rest ∧
    tmxr_poll_rx_scan TNS_WONT dstb ((0, r) :: rest) = tmxr_poll_rx_scan TNS_NORM 1 rest := by
  constructor <;> rfl

/--
C9: on a connected line whose transmit buffer is completely full (write
cursor equal to the buffer capacity), tmxr_putc_ln discards the character,
leaves the buffer contents and both transmit cursors unchanged, and clears
the transmit-enabled flag; the function returns void, so the caller receives
no error indication.
-/
theorem c9_putc_full (maxbuf guard chr : ℕ) (lp : TxLine)
    (hconn : lp.conn ≠ 0) (hfull : lp.txbpi = maxbuf) :
    tmxr_putc_ln maxbuf guard lp chr = { lp with xmte := 0 } := by
  unfold tmxr_putc_ln
  rw [if_neg hconn, if_neg (by omega)]

/--
C9 witness: a concrete connected line with an 8-byte buffer whose write
cursor sits at 8 drops the character and only clears xmte.
-/
theorem c9_putc_full_witness :
    tmxr_putc_ln 8 2 ⟨1, fun _ => 0, 8, 3, 1⟩ 65 =
      { (⟨1, fun _ => 0, 8, 3, 1⟩ : TxLine) with xmte := 0 } :=
  c9_putc_full 8 2 65 ⟨1, fun _ => 0, 8, 3, 1⟩ (by decide) rfl

/- ===================== Theorems: hard disk claims ===================== -/

theorem nat_and_255 (x : ℕ) : x &&& 255 = x % 256 := by
  simpa using Nat.and_pow_two_sub_one_eq_mod x 8

theorem nat_shr_8 (x : ℕ) : x >>> 8 = x / 256 := by
  simpa using Nat.shiftRight_eq_div_pow x 8

/--
C5: a disk WRITE addressed to a write-locked unit reports CPM_ERROR without
seeking and without modifying any byte of the backing store or any other
state, for all sector, track and DMA parameter values (they are fields of
the arbitrary state s).
-/
theorem c5_writelock (s : HdskSim) (hw : (s.units s.selectedDisk).wlk = true) :
    doWrite s = (CPM_ERROR, s) := by
  simp [doWrite, hw]

/--
C5 witness: a concrete write-locked unit with arbitrary sector, track and
DMA values is refused with the state unchanged.
-/
theorem c5_writelock_witness :
    doWrite ⟨HDSK_WRITE, 6, 0, 0, 5, 7, 0x100,
      fun _ => ⟨true, true, false, 0, 128, 32, 2048, fun _ => 0, 8388608, 0, true⟩,
      fun _ => 0, fun _ => 0⟩ =
    (CPM_ERROR, ⟨HDSK_WRITE, 6, 0, 0, 5, 7, 0x100,
      fun _ => ⟨true, true, false, 0, 128, 32, 2048, fun _ => 0, 8388608, 0, true⟩,
      fun _ => 0, fun _ => 0⟩) :=
  c5_writelock _ rfl

/--
C2: the claim says the parameter check repairs unit 99 to 0, sector -1 to 0
and track 999999 to 0 and proceeds.  In the source, the UNIT pointer used
for the sector and track bounds is computed before the unit-index repair, so
with unit = 99 those bounds are read from hdsk_unit[99], memory beyond the
8-entry array.  In an environment where that garbage maxTracks exceeds
999999 the check succeeds but leaves track = 999999 unrepaired (first
conjunct), while an environment with a small garbage maxTracks repairs it to
0 (second conjunct): the claimed deterministic repair to 0 does not happen;
it depends on out-of-bounds memory.
-/
theorem c2_stale_geometry :
    ((checkParameters (c2state c2oobBig)).1 = true ∧
     (checkParameters (c2state c2oobBig)).2.selectedDisk = 0 ∧
     (checkParameters (c2state c2oobBig)).2.selectedSector = 0 ∧
     (checkParameters (c2state c2oobBig)).2.selectedTrack = 999999) ∧
    ((checkParameters (c2state c2oobSmall)).1 = true ∧
     (checkParameters (c2state c2oobSmall)).2.selectedTrack = 0) := by
  decide

/-- Helper: running GET-PARAMETERS from an idle sequencer (command byte 4,
then the unit index u, then 19 reads) produces exactly the rawParamList
bytes and ends with the sequencer idle, paramcount 19 and u selected. -/
theorem hdsk_param_run (s : HdskSim) (u : ℕ) (hidle : s.lastCommand = HDSK_NONE) :
    hdskReadN 19 (hdsk_out (hdsk_out s 4) u) =
      (rawParamList s u,
       { s with lastCommand := HDSK_NONE, commandPosition := 0, paramcount := 19,
                selectedDisk := (u : ℤ) }) := by
  simp [hdsk_out, hidle, HDSK_NONE, HDSK_PARAM, HDSK_READ, HDSK_WRITE, CPM_OK,
        hdskReadN, hdsk_in, rawParamList]

/--
C1: for every disk unit with an active geometry descriptor, the two-byte
GET-PARAMETERS command (command byte 4, then the unit index) followed by
exactly 19 reads of the disk port returns, in order, the 17 descriptor bytes
with multi-byte fields split low byte first, then the physical sector size
low byte, then its high byte; after the 19th read the pending command is
cleared and any next output byte is accepted as a fresh command byte.
-/
theorem c1_getparams (s : HdskSim) (u : ℕ) (_hu : u < 8)
    (hidle : s.lastCommand = HDSK_NONE)
    (hft : (s.units (u : ℤ)).formatType < 4) :
    (hdskReadN 19 (hdsk_out (hdsk_out s 4) u)).1 =
      paramBytes (dpbAt (s.units (u : ℤ)).formatType) ((s.units (u : ℤ)).sectorSize) ∧
    (hdskReadN 19 (hdsk_out (hdsk_out s 4) u)).2.lastCommand = HDSK_NONE ∧
    ∀ b : ℕ, hdsk_out (hdskReadN 19 (hdsk_out (hdsk_out s 4) u)).2 b =
      { (hdskReadN 19 (hdsk_out (hdsk_out s 4) u)).2 with
          lastCommand := b, commandPosition := 0 } := by
  rw [hdsk_param_run s u hidle]
  refine ⟨?_, rfl, ?_⟩
  · generalize hg : (s.units (u : ℤ)).formatType = ft at hft ⊢
    interval_cases ft <;>
      simp [rawParamList, paramBytes, dpbAt, dpbTable, hg, nat_and_255, nat_shr_8]
  · intro b
    simp [hdsk_out, HDSK_PARAM, HDSK_READ, HDSK_WRITE, HDSK_NONE]

/--
C1 witness: the sequence on unit 3 of the concrete demo state (format 0,
sector size 128) produces the HDSK descriptor bytes and ends idle.
-/
theorem c1_getparams_witness :
    3 < 8 ∧ hdskDemo.lastCommand = HDSK_NONE ∧ (hdskDemo.units (3 : ℤ)).formatType < 4 ∧
    ((hdskReadN 19 (hdsk_out (hdsk_out hdskDemo 4) 3)).1 =
       paramBytes (dpbAt (hdskDemo.units (3 : ℤ)).formatType) ((hdskDemo.units (3 : ℤ)).sectorSize) ∧
     (hdskReadN 19 (hdsk_out (hdsk_out hdskDemo 4) 3)).2.lastCommand = HDSK_NONE ∧
     ∀ b : ℕ, hdsk_out (hdskReadN 19 (hdsk_out (hdsk_out hdskDemo 4) 3)).2 b =
       { (hdskReadN 19 (hdsk_out (hdsk_out hdskDemo 4) 3)).2 with
           lastCommand := b, commandPosition := 0 }) :=
  ⟨by decide, rfl, by decide, c1_getparams hdskDemo 3 (by decide) rfl (by decide)⟩

theorem hdsk_in_idle (s : HdskSim) (h : s.lastCommand = HDSK_NONE) :
    hdsk_in s = (CPM_OK, s) := by
  simp [hdsk_in, h, HDSK_NONE, HDSK_READ, HDSK_WRITE, HDSK_PARAM, CPM_OK]

theorem hdsk_idle_reads (s : HdskSim) (h : s.lastCommand = HDSK_NONE) (n : ℕ) :
    hdskReadN n s = (List.replicate n CPM_OK, s) := by
  induction n with
  | zero => simp [hdskReadN]
  | succ n ih => simp [hdskReadN, hdsk_in_idle s h, ih, List.replicate_succ]

/--
C10: after the 19th GET-PARAMETERS byte has been read the pending command is
already HDSK_NONE, so the diagnostic branch for reading past 19 bytes inside
the parameter-read path cannot be reached by further reads: every further
read with no new command issued takes the out-of-order-read path, returns
CPM_OK = 0 and leaves the state unchanged.
-/
theorem c10_idle_after_param (s : HdskSim) (u : ℕ)
    (hidle : s.lastCommand = HDSK_NONE) (n : ℕ) :
    (hdskReadN 19 (hdsk_out (hdsk_out s 4) u)).2.lastCommand = HDSK_NONE ∧
    hdskReadN n (hdskReadN 19 (hdsk_out (hdsk_out s 4) u)).2 =
      (List.replicate n CPM_OK, (hdskReadN 19 (hdsk_out (hdsk_out s 4) u)).2) := by
  rw [hdsk_param_run s u hidle]
  exact ⟨rfl, hdsk_idle_reads _ rfl n⟩

/--
C10 witness: two extra reads after a complete GET-PARAMETERS sequence on the
demo state both return 0 and do not move the sequencer.
-/
theorem c10_idle_after_param_witness :
    hdskDemo.lastCommand = HDSK_NONE ∧
    ((hdskReadN 19 (hdsk_out (hdsk_out hdskDemo 4) 3)).2.lastCommand = HDSK_NONE ∧
     hdskReadN 2 (hdskReadN 19 (hdsk_out (hdsk_out hdskDemo 4) 3)).2 =
       (List.replicate 2 CPM_OK, (hdskReadN 19 (hdsk_out (hdsk_out hdskDemo 4) 3)).2)) :=
  ⟨rfl, c10_idle_after_param hdskDemo 3 rfl 2⟩

/- ===================== Theorems: tape controller claims ===================== -/

theorem mt_updcsta_fst (k sta ustat cu intReq new : ℕ) :
    (mt_updcsta k sta ustat cu intReq new).1 = mt_newsta sta ustat new := by
  simp only [mt_updcsta]
  split <;> rfl

/--
C8: after mt_updcsta, the controller interrupt request bit is asserted if
and only if at least one of the STA_ERR and STA_DON bits is set in the
updated status register and interrupts are not masked (the CU_IE bit of the
command register is clear); in particular the request is withdrawn as soon
as both bits are clear.  Every status-changing operation of the driver
(command issue, service completion, reset, attach, detach) ends by calling
mt_updcsta, so this holds after each of them.
-/
theorem c8_interrupt_iff (k sta ustat cu intReq new : ℕ) :
    (mt_updcsta k sta ustat cu intReq new).2.testBit k = true ↔
      ((mt_updcsta k sta ustat cu intReq new).1 &&& (STA_ERR ||| STA_DON) ≠ 0 ∧
       cu &&& CU_IE = 0) := by
  simp only [mt_updcsta]
  by_cases hc : mt_newsta sta ustat new &&& (STA_ERR ||| STA_DON) ≠ 0 ∧ cu &&& CU_IE = 0
  · simp [hc, Nat.testBit_or, Nat.testBit_two_pow_self]
  · simp [hc, Nat.testBit_ldiff, Nat.testBit_two_pow_self]

theorem mt_newsta_ill (x ustat : ℕ) : (mt_newsta (x ||| STA_ILL) ustat 0).testBit 14 = true := by
  have h1 : Nat.testBit STA_ILL 14 = true := by decide
  have h2 : Nat.testBit (STA_DYN ||| STA_ERR ||| STA_CLR) 14 = false := by decide
  have h3 : Nat.testBit STA_ERR 14 = false := by decide
  have h4 : Nat.testBit STA_DYN 14 = false := by decide
  simp only [mt_newsta]
  split <;>
    simp [Nat.testBit_or, Nat.testBit_ldiff, Nat.testBit_and, h1, h2, h3, h4]

/--
C4: whenever MTGO (pulse 004) issues a tape function while the addressed
unit or any unit is already busy, or READ/COMPARE is issued with no backing
store attached, or WRITE/WRITE-FILE-MARK is issued against a write-locked
unit, or SPACE-REVERSE/REWIND is issued at position 0, the controller sets
the illegal-operation bit STA_ILL (bit 14) in the status register and
performs no work: the whole unit array, hence every activation flag and the
addressed unit's position and status word, is unchanged.
-/
theorem c4_illegal_noop (k iotskp AC : ℕ) (s : MtCtl)
    (hcond :
      (mtBusy s = true ∨ (s.units (GET_UNIT s.cu)).active = true) ∨
      ((GET_CMD s.cu = FN_READ ∨ GET_CMD s.cu = FN_CMPARE) ∧ (s.units (GET_UNIT s.cu)).att = false) ∨
      ((GET_CMD s.cu = FN_WRITE ∨ GET_CMD s.cu = FN_WREOF) ∧ (s.units (GET_UNIT s.cu)).wlk = true) ∨
      ((GET_CMD s.cu = FN_SPACER ∨ GET_CMD s.cu = FN_REWIND) ∧ (s.units (GET_UNIT s.cu)).pos = 0)) :
    (mt_iot k iotskp 4 AC s).1.units = s.units ∧
    (mt_iot k iotskp 4 AC s).1.sta.testBit 14 = true := by
  have e1 : ((4:ℕ) &&& 50) = 0 := by decide
  have e2 : ((4:ℕ) &&& 52) = 4 := by decide
  obtain (h | h) | ⟨h1 | h1, h2⟩ | ⟨h1 | h1, h2⟩ | ⟨h1 | h1, h2⟩ := hcond
  · replace h : mtBusyU s.units = true := h
    constructor <;>
      simp [mt_iot, updC, mtBusy, MtCtl.setUnit, mt_updcsta_fst, mt_newsta_ill, h, e1, e2,
            FN_NOP, FN_REWIND, FN_READ, FN_CMPARE, FN_WRITE, FN_WREOF, FN_SPACEF, FN_SPACER]
  · constructor <;>
      simp [mt_iot, updC, mtBusy, MtCtl.setUnit, mt_updcsta_fst, mt_newsta_ill, h, e1, e2,
            FN_NOP, FN_REWIND, FN_READ, FN_CMPARE, FN_WRITE, FN_WREOF, FN_SPACEF, FN_SPACER]
  · constructor <;>
      simp [mt_iot, updC, mtBusy, MtCtl.setUnit, mt_updcsta_fst, mt_newsta_ill, h1, h2, e1, e2,
            FN_NOP, FN_REWIND, FN_READ, FN_CMPARE, FN_WRITE, FN_WREOF, FN_SPACEF, FN_SPACER]
  · constructor <;>
      simp [mt_iot, updC, mtBusy, MtCtl.setUnit, mt_updcsta_fst, mt_newsta_ill, h1, h2, e1, e2,
            FN_NOP, FN_REWIND, FN_READ, FN_CMPARE, FN_WRITE, FN_WREOF, FN_SPACEF, FN_SPACER]
  · constructor <;>
      simp [mt_iot, updC, mtBusy, MtCtl.setUnit, mt_updcsta_fst, mt_newsta_ill, h1, h2, e1, e2,
            FN_NOP, FN_REWIND, FN_READ, FN_CMPARE, FN_WRITE, FN_WREOF, FN_SPACEF, FN_SPACER]
  · constructor <;>
      simp [mt_iot, updC, mtBusy, MtCtl.setUnit, mt_updcsta_fst, mt_newsta_ill, h1, h2, e1, e2,
            FN_NOP, FN_REWIND, FN_READ, FN_CMPARE, FN_WRITE, FN_WREOF, FN_SPACEF, FN_SPACER]
  · constructor <;>
      simp [mt_iot, updC, mtBusy, MtCtl.setUnit, mt_updcsta_fst, mt_newsta_ill, h1, h2, e1, e2,
            FN_NOP, FN_REWIND, FN_READ, FN_CMPARE, FN_WRITE, FN_WREOF, FN_SPACEF, FN_SPACER]
  · constructor <;>
      simp [mt_iot, updC, mtBusy, MtCtl.setUnit, mt_updcsta_fst, mt_newsta_ill, h1, h2, e1, e2,
            FN_NOP, FN_REWIND, FN_READ, FN_CMPARE, FN_WRITE, FN_WREOF, FN_SPACEF, FN_SPACER]

/--
C4 witness: issuing READ (command register 0o2000) at the concrete state
whose unit 0 is unattached sets STA_ILL and touches no unit.
-/
theorem c4_illegal_noop_witness :
    ((GET_CMD mtDemo.cu = FN_READ ∨ GET_CMD mtDemo.cu = FN_CMPARE) ∧
      (mtDemo.units (GET_UNIT mtDemo.cu)).att = false) ∧
    ((mt_iot 0 0 4 0 mtDemo).1.units = mtDemo.units ∧
     (mt_iot 0 0 4 0 mtDemo).1.sta.testBit 14 = true) :=
  ⟨⟨Or.inl (by decide), rfl⟩,
   c4_illegal_noop 0 0 0 mtDemo (Or.inr (Or.inl ⟨Or.inl (by decide), rfl⟩))⟩

theorem dec3_enc (v : ℕ) (hv : v < 2 ^ 18) :
    dec3 ((v >>> 12) &&& 0o77) ((v >>> 6) &&& 0o77) (v &&& 0o77) = v := by
  unfold dec3
  have e1 : ∀ x : ℕ, x &&& 0o77 = x % 64 := fun x => by
    simpa using Nat.and_pow_two_sub_one_eq_mod x 6
  have e2 : v >>> 12 = v / 4096 := by
    have h := Nat.shiftRight_eq_div_pow v 12
    norm_num at h
    exact h
  have e3 : v >>> 6 = v / 64 := by
    have h := Nat.shiftRight_eq_div_pow v 6
    norm_num at h
    exact h
  rw [e1, e1, e1, e2, e3, e1, e1, e1, Nat.shiftLeft_eq, Nat.shiftLeft_eq]
  rw [Nat.mul_comm (v / 4096 % 64 % 64) (2 ^ 12), Nat.mul_comm (v / 64 % 64 % 64) (2 ^ 6)]
  rw [← Nat.mul_add_lt_is_or (show 2 ^ 6 * (v / 64 % 64 % 64) < 2 ^ 12 by
        have := Nat.mod_lt (v / 64 % 64) (show 0 < 64 by norm_num); omega)
      (v / 4096 % 64 % 64)]
  rw [show 2 ^ 12 * (v / 4096 % 64 % 64) + 2 ^ 6 * (v / 64 % 64 % 64) =
        2 ^ 6 * (2 ^ 6 * (v / 4096 % 64 % 64) + v / 64 % 64 % 64) by ring]
  rw [← Nat.mul_add_lt_is_or (show v % 64 % 64 < 2 ^ 6 by
        have := Nat.mod_lt (v % 64) (show 0 < 64 by norm_num); omega)
      (2 ^ 6 * (v / 4096 % 64 % 64) + v / 64 % 64 % 64)]
  have h12 : (2:ℕ) ^ 6 = 64 := by norm_num
  rw [h12]
  omega

theorem mtWriteLoop_mem (mask : ℕ) (packed : Bool) :
    ∀ (n : ℕ) (M : ℕ → ℕ) (dbuf : List ℕ) (a : ℕ), a ≠ MT_WC → a ≠ MT_MA →
      (mtWriteLoop mask packed n M dbuf).1 a = M a := by
  intro n
  induction n with
  | zero => intro M dbuf a h1 h2; rfl
  | succ n ih =>
    intro M dbuf a h1 h2
    simp only [mtWriteLoop]
    rw [ih _ _ a h1 h2]
    rw [Function.update_noteq h1, Function.update_noteq h2]

theorem encSeq_congr (mask : ℕ) (M M2 : ℕ → ℕ)
    (h : ∀ a, a ≠ MT_WC → a ≠ MT_MA → M a = M2 a) :
    ∀ (n ma : ℕ), okWindow mask ma n = true → encSeq mask M ma n = encSeq mask M2 ma n := by
  intro n
  induction n with
  | zero => intro ma _; rfl
  | succ n ih =>
    intro ma hw
    simp only [okWindow, Bool.and_eq_true, bne_iff_ne] at hw
    obtain ⟨⟨hx1, hx2⟩, hw2⟩ := hw
    simp only [encSeq]
    rw [h _ hx1 hx2, ih _ hw2]

theorem encSeq_length (mask : ℕ) (M : ℕ → ℕ) :
    ∀ (n ma : ℕ), (encSeq mask M ma n).length = 3 * n := by
  intro n
  induction n with
  | zero => intro ma; rfl
  | succ n ih =>
    intro ma
    simp only [encSeq, List.length_append, List.length_cons, List.length_nil, ih]
    omega

theorem mtWriteLoop_bytes (mask : ℕ) :
    ∀ (n : ℕ) (M : ℕ → ℕ) (dbuf : List ℕ), okWindow mask (M MT_MA) n = true →
      (mtWriteLoop mask true n M dbuf).2 = dbuf ++ encSeq mask M (M MT_MA) n := by
  intro n
  induction n with
  | zero => intro M dbuf _; simp [mtWriteLoop, encSeq]
  | succ n ih =>
    intro M dbuf hw
    simp only [okWindow, Bool.and_eq_true, bne_iff_ne] at hw
    obtain ⟨⟨hx1, hx2⟩, hw2⟩ := hw
    simp only [mtWriteLoop, encSeq, if_true]
    have hMA : (Function.update (Function.update M MT_MA ((M MT_MA + 1) &&& 0o777777)) MT_WC
        (((Function.update M MT_MA ((M MT_MA + 1) &&& 0o777777)) MT_WC + 1) &&& 0o777777)) MT_MA =
        (M MT_MA + 1) &&& 0o777777 := by
      rw [Function.update_noteq (show MT_MA ≠ MT_WC by decide), Function.update_same]
    rw [ih _ _ (by rw [hMA]; exact hw2)]
    rw [hMA]
    have hxv : (Function.update M MT_MA ((M MT_MA + 1) &&& 0o777777))
        (((M MT_MA + 1) &&& 0o777777) &&& mask) = M (((M MT_MA + 1) &&& 0o777777) &&& mask) := by
      rw [Function.update_noteq hx2]
    have hup : (Function.update M MT_MA ((M MT_MA + 1) &&& 0o777777)) MT_MA =
        (M MT_MA + 1) &&& 0o777777 := Function.update_same _ _ _
    rw [hup, hxv]
    have hwc : (Function.update (Function.update M MT_MA ((M MT_MA + 1) &&& 0o777777)) MT_WC
        (((Function.update M MT_MA ((M MT_MA + 1) &&& 0o777777)) MT_WC + 1) &&& 0o777777)) =
        fun a => if a = MT_WC then (((Function.update M MT_MA ((M MT_MA + 1) &&& 0o777777)) MT_WC + 1) &&& 0o777777)
          else if a = MT_MA then (M MT_MA + 1) &&& 0o777777 else M a := by
      funext a
      by_cases ha1 : a = MT_WC
      · subst ha1; rw [Function.update_same]; simp
      · by_cases ha2 : a = MT_MA
        · subst ha2
          rw [Function.update_noteq (show MT_MA ≠ MT_WC by decide), Function.update_same]
          simp [show (MT_MA ≠ MT_WC) by decide]
        · rw [Function.update_noteq ha1, Function.update_noteq ha2]
          simp [ha1, ha2]
    rw [encSeq_congr mask _ M (by
      intro a h1 h2
      rw [Function.update_noteq h1, Function.update_noteq h2]) _ _ hw2]
    simp [List.append_assoc]

theorem mtReadLoop_roundtrip (k mask memsize : ℕ) (M0 : ℕ → ℕ) (hM0 : ∀ a, M0 a < 2 ^ 18) :
    ∀ (n ma : ℕ) (s : TapeSvc),
      s.mem MT_MA = ma →
      (∀ a, a ≠ MT_WC → a ≠ MT_MA → s.mem a = M0 a) →
      okWindow mask ma n = true →
      ∀ a, a ≠ MT_WC → a ≠ MT_MA →
        (mtReadLoop k mask memsize true false n (encSeq mask M0 ma n) s).mem a = M0 a := by
  intro n
  induction n with
  | zero => intro ma s hma hagree _ a h1 h2; exact hagree a h1 h2
  | succ n ih =>
    intro ma s hma hagree hw a h1 h2
    simp only [okWindow, Bool.and_eq_true, bne_iff_ne] at hw
    obtain ⟨⟨hx1, hx2⟩, hw2⟩ := hw
    simp only [mtReadLoop, encSeq, hma, Function.update_same, List.cons_append, List.nil_append,
               List.getD_cons_zero, List.getD_cons_succ,
               List.drop_succ_cons, List.drop_zero, if_true, true_and, false_and, if_false,
               Bool.false_eq_true]
    rw [dec3_enc _ (hM0 _)]
    by_cases hm : (ma + 1 &&& 262143) &&& mask < memsize
    · rw [if_pos hm]
      apply ih ((ma + 1) &&& 262143) _ _ _ hw2 a h1 h2
      · dsimp only
        rw [Function.update_noteq (show MT_MA ≠ MT_WC by decide),
            Function.update_noteq (Ne.symm hx2), Function.update_same]
      · intro b hb1 hb2
        dsimp only
        rw [Function.update_noteq hb1]
        by_cases hbx : b = (ma + 1 &&& 262143) &&& mask
        · subst hbx; rw [Function.update_same]
        · rw [Function.update_noteq hbx, Function.update_noteq hb2]
          exact hagree b hb1 hb2
    · rw [if_neg hm]
      apply ih ((ma + 1) &&& 262143) _ _ _ hw2 a h1 h2
      · dsimp only
        rw [Function.update_noteq (show MT_MA ≠ MT_WC by decide), Function.update_same]
      · intro b hb1 hb2
        dsimp only
        rw [Function.update_noteq hb1, Function.update_noteq hb2]
        exact hagree b hb1 hb2

theorem mtReadLoop_sta (k mask memsize : ℕ) (packed : Bool) :
    ∀ (n : ℕ) (dbuf : List ℕ) (s : TapeSvc),
      (mtReadLoop k mask memsize packed false n dbuf s).sta = s.sta := by
  intro n
  induction n with
  | zero => intro dbuf s; rfl
  | succ n ih =>
    intro dbuf s
    simp only [mtReadLoop, Bool.false_eq_true, false_and, if_false, true_and]
    split <;> exact ih _ _

theorem mt_newsta_rle (x u : ℕ) : (mt_newsta (x ||| STA_RLE) u 0).testBit 9 = true := by
  have h1 : Nat.testBit STA_RLE 9 = true := by decide
  have h2 : Nat.testBit (STA_DYN ||| STA_ERR ||| STA_CLR) 9 = false := by decide
  have h3 : Nat.testBit STA_ERR 9 = false := by decide
  have h4 : Nat.testBit STA_DYN 9 = false := by decide
  simp only [mt_newsta]
  split <;>
    simp [Nat.testBit_or, Nat.testBit_ldiff, Nat.testBit_and, h1, h2, h3, h4]

theorem updcstaT_mem (k : ℕ) (s : TapeSvc) (new : ℕ) : (updcstaT k s new).mem = s.mem := rfl

theorem updcstaT_cu (k : ℕ) (s : TapeSvc) (new : ℕ) : (updcstaT k s new).cu = s.cu := rfl

theorem updcstaT_sta (k : ℕ) (s : TapeSvc) (new : ℕ) :
    (updcstaT k s new).sta = mt_newsta s.sta s.ustat new := by
  simp [updcstaT, mt_updcsta_fst]

theorem and_dbmask (x : ℕ) : x &&& DBMASK = x % 4096 := by
  have h := Nat.and_pow_two_sub_one_eq_mod x 12
  norm_num at h
  simpa [DBMASK, DBSIZE] using h

theorem wc_pos (x : ℕ) : 1 ≤ DBSIZE - (x &&& DBMASK) ∧ DBSIZE - (x &&& DBMASK) ≤ 4096 := by
  rw [and_dbmask]
  have := Nat.mod_lt x (show 0 < 4096 by norm_num)
  simp only [DBSIZE]
  omega

theorem MTRL_small (x : ℕ) (h : x < 2 ^ 31) : MTRL x = x := by
  unfold MTRL
  rw [show (0x7FFFFFFF : ℕ) = 2 ^ 31 - 1 by norm_num, Nat.and_pow_two_sub_one_eq_mod]
  exact Nat.mod_eq_of_lt h

theorem padEven_take (l : List ℕ) (n : ℕ) (h : l.length = n) : (padEven l).take n = l := by
  unfold padEven
  split
  · rw [← h, List.take_left]
  · rw [← h, List.take_length]

theorem padEven_length (l : List ℕ) : l.length ≤ (padEven l).length := by
  unfold padEven
  split <;> simp

theorem c3_part1 (k mask memsize : ℕ) (s : TapeSvc)
    (h18 : ∀ a, s.mem a < 2 ^ 18) (hp : PACKED s.cu = true)
    (hd : okWindow mask (s.mem MT_MA) (DBSIZE - (s.mem MT_WC &&& DBMASK)) = true) :
    ∀ a, a ≠ MT_WC → a ≠ MT_MA →
      (writeThenRead k mask memsize s.cu s).mem a = s.mem a := by
  intro a h1 h2
  have hwc := wc_pos (s.mem MT_WC)
  have hw1 : (mtSvcWrite k mask false s).1.mem =
      (mtWriteLoop mask true (DBSIZE - (s.mem MT_WC &&& DBMASK)) s.mem []).1 := by
    simp [mtSvcWrite, hp, updcstaT_mem]
  have hw2 : (mtSvcWrite k mask false s).2.1 = (DBSIZE - (s.mem MT_WC &&& DBMASK)) * 3 := by
    simp [mtSvcWrite, hp]
  have hw3 : (mtSvcWrite k mask false s).2.2 =
      padEven (encSeq mask s.mem (s.mem MT_MA) (DBSIZE - (s.mem MT_WC &&& DBMASK))) := by
    simp only [mtSvcWrite, hp, if_true]
    rw [mtWriteLoop_bytes mask _ s.mem [] hd]
    simp
  have hw4 : (mtSvcWrite k mask false s).1.cu = s.cu := by
    simp [mtSvcWrite, updcstaT_cu]
  unfold writeThenRead
  dsimp only
  rw [hw2, hw3]
  have hE_WC : (Function.update (Function.update (mtSvcWrite k mask false s).1.mem MT_WC (s.mem MT_WC))
      MT_MA (s.mem MT_MA)) MT_WC = s.mem MT_WC := by
    rw [Function.update_noteq (show MT_WC ≠ MT_MA by decide), Function.update_same]
  have hE_MA : (Function.update (Function.update (mtSvcWrite k mask false s).1.mem MT_WC (s.mem MT_WC))
      MT_MA (s.mem MT_MA)) MT_MA = s.mem MT_MA := Function.update_same _ _ _
  have hE_off : ∀ b, b ≠ MT_WC → b ≠ MT_MA →
      (Function.update (Function.update (mtSvcWrite k mask false s).1.mem MT_WC (s.mem MT_WC))
        MT_MA (s.mem MT_MA)) b = s.mem b := by
    intro b hb1 hb2
    rw [Function.update_noteq hb2, Function.update_noteq hb1, hw1]
    exact mtWriteLoop_mem mask true _ s.mem [] b hb1 hb2
  simp only [mtSvcRead, Bool.false_eq_true, if_false]
  rw [if_neg (show ¬ ((DBSIZE - (s.mem MT_WC &&& DBMASK)) * 3 = 0) by omega)]
  rw [hE_WC]
  rw [MTRL_small _ (by omega)]
  simp only [hp, eq_self_iff_true, if_true]
  rw [if_neg (show ¬ ((DBSIZE - (s.mem MT_WC &&& DBMASK)) * 3 <
        (DBSIZE - (s.mem MT_WC &&& DBMASK)) * 3) by omega)]
  rw [if_neg (show ¬ ((DBSIZE - (s.mem MT_WC &&& DBMASK)) * 3 <
        (DBSIZE - (s.mem MT_WC &&& DBMASK)) * 3) by omega)]
  rw [if_neg (show ¬ ((DBSIZE - (s.mem MT_WC &&& DBMASK)) * 3 ≠
        (DBSIZE - (s.mem MT_WC &&& DBMASK)) * 3) by simp)]
  rw [padEven_take _ _ (by rw [encSeq_length]; ring)]
  rw [show (DBSIZE - (s.mem MT_WC &&& DBMASK)) * 3 -
        (padEven (encSeq mask s.mem (s.mem MT_MA) (DBSIZE - (s.mem MT_WC &&& DBMASK)))).length = 0 from by
      have hle := padEven_length (encSeq mask s.mem (s.mem MT_MA) (DBSIZE - (s.mem MT_WC &&& DBMASK)))
      have hl2 := encSeq_length mask s.mem (DBSIZE - (s.mem MT_WC &&& DBMASK)) (s.mem MT_MA)
      omega]
  simp only [List.replicate, List.append_nil, updcstaT_mem]
  refine mtReadLoop_roundtrip k mask memsize s.mem h18
    (DBSIZE - (s.mem MT_WC &&& DBMASK)) (s.mem MT_MA) _ ?_ ?_ hd a h1 h2
  · exact hE_MA
  · exact hE_off

theorem mt_newsta_rle_don (x u : ℕ) :
    (mt_newsta (x ||| STA_RLE) u STA_DON).testBit 9 = true := by
  have h1 : Nat.testBit STA_RLE 9 = true := by decide
  have h2 : Nat.testBit (STA_DYN ||| STA_ERR ||| STA_CLR) 9 = false := by decide
  have h3 : Nat.testBit STA_ERR 9 = false := by decide
  have h4 : Nat.testBit STA_DYN 9 = false := by decide
  simp only [mt_newsta]
  split <;>
    simp [Nat.testBit_or, Nat.testBit_ldiff, Nat.testBit_and, h1, h2, h3, h4]

theorem c3_part2 (k mask memsize : ℕ) (s : TapeSvc) (cu2 : ℕ)
    (hne : PACKED s.cu ≠ PACKED cu2) :
    ((writeThenRead k mask memsize cu2 s).sta).testBit 9 = true := by
  have hwc := wc_pos (s.mem MT_WC)
  have hE_WC : (Function.update (Function.update (mtSvcWrite k mask false s).1.mem MT_WC (s.mem MT_WC))
      MT_MA (s.mem MT_MA)) MT_WC = s.mem MT_WC := by
    rw [Function.update_noteq (show MT_WC ≠ MT_MA by decide), Function.update_same]
  have hw2 : (mtSvcWrite k mask false s).2.1 =
      if PACKED s.cu = true then (DBSIZE - (s.mem MT_WC &&& DBMASK)) * 3
      else (DBSIZE - (s.mem MT_WC &&& DBMASK)) * 2 := by
    simp [mtSvcWrite]
  unfold writeThenRead
  dsimp only
  rw [hw2]
  cases hPw : PACKED s.cu with
  | true =>
    have hq : PACKED cu2 = false := by
      rw [hPw] at hne
      cases hcu2 : PACKED cu2
      · rfl
      · exact absurd hcu2.symm hne
    simp only [mtSvcRead, Bool.false_eq_true, if_false, hPw, hq, if_true, eq_self_iff_true]
    rw [if_neg (show ¬ ((DBSIZE - (s.mem MT_WC &&& DBMASK)) * 3 = 0) by omega)]
    rw [hE_WC]
    rw [MTRL_small _ (by omega)]
    rw [if_pos (show (DBSIZE - (s.mem MT_WC &&& DBMASK)) * 3 ≠
          (DBSIZE - (s.mem MT_WC &&& DBMASK)) * 2 by omega)]
    rw [updcstaT_sta]
    dsimp only
    rw [mtReadLoop_sta]
    exact mt_newsta_rle_don _ _
  | false =>
    have hq : PACKED cu2 = true := by
      rw [hPw] at hne
      cases hcu2 : PACKED cu2
      · exact absurd hcu2.symm hne
      · rfl
    simp only [mtSvcRead, Bool.false_eq_true, if_false, hPw, hq, if_true, eq_self_iff_true]
    rw [if_neg (show ¬ ((DBSIZE - (s.mem MT_WC &&& DBMASK)) * 2 = 0) by omega)]
    rw [hE_WC]
    rw [MTRL_small _ (by omega)]
    rw [if_pos (show (DBSIZE - (s.mem MT_WC &&& DBMASK)) * 2 ≠
          (DBSIZE - (s.mem MT_WC &&& DBMASK)) * 3 by omega)]
    rw [updcstaT_sta]
    dsimp only
    rw [mtReadLoop_sta]
    exact mt_newsta_rle_don _ _

/--
C3: for every word count W (the in-core register M[MT_WC]) and every 18-bit
memory whose DMA window avoids the in-core registers, a tape WRITE of a
record in packed mode followed by a READ of that record with the same word
count and packing mode reproduces the original memory words exactly (every
address other than the two in-core registers holds its original value); and
for every write, reading the record back with the packing mode switched
(packed write with unpacked read, or unpacked write with packed read) sets
the record-length-error flag STA_RLE (bit 9) in the final status register.
-/
theorem c3_tape_roundtrip (k mask memsize : ℕ) (s : TapeSvc)
    (h18 : ∀ a, s.mem a < 2 ^ 18) (hp : PACKED s.cu = true)
    (hd : okWindow mask (s.mem MT_MA) (DBSIZE - (s.mem MT_WC &&& DBMASK)) = true) :
    (∀ a, a ≠ MT_WC → a ≠ MT_MA →
       (writeThenRead k mask memsize s.cu s).mem a = s.mem a) ∧
    (∀ (s2 : TapeSvc) (cu2 : ℕ), PACKED s2.cu ≠ PACKED cu2 →
       ((writeThenRead k mask memsize cu2 s2).sta).testBit 9 = true) :=
  ⟨c3_part1 k mask memsize s h18 hp hd, fun s2 cu2 hne => c3_part2 k mask memsize s2 cu2 hne⟩

/--
C3 witness: the concrete one-word packed transfer of tapeDemo round-trips,
and the mode-switched read-back of any record sets STA_RLE.
-/
theorem c3_tape_roundtrip_witness :
    (∀ a, tapeDemo.mem a < 2 ^ 18) ∧ PACKED tapeDemo.cu = true ∧
    okWindow 0o777777 (tapeDemo.mem MT_MA) (DBSIZE - (tapeDemo.mem MT_WC &&& DBMASK)) = true ∧
    ((∀ a, a ≠ MT_WC → a ≠ MT_MA →
        (writeThenRead 0 0o777777 262144 tapeDemo.cu tapeDemo).mem a = tapeDemo.mem a) ∧
     (∀ (s2 : TapeSvc) (cu2 : ℕ), PACKED s2.cu ≠ PACKED cu2 →
        ((writeThenRead 0 0o777777 262144 cu2 s2).sta).testBit 9 = true)) := by
  have h18w : ∀ a, tapeDemo.mem a < 2 ^ 18 := by
    intro a
    simp only [tapeDemo]
    split_ifs <;> norm_num
  exact ⟨h18w, by decide, by decide,
    c3_tape_roundtrip 0 0o777777 262144 tapeDemo h18w (by decide) (by decide)⟩
